import Mathlib

/-!
Verification of fafacms: content records (`core/model/file.go`) and account
workflows (`core/controllers/user.go`).

The record store is embedded as a list of rows; the xorm session used by
`file.go` is embedded as a list of conditions plus a list of columns to write.
-/

namespace Fafacms

/-! ## File records -/

/-- The `File` struct of `core/model/file.go`, field for field (`Type_` is the
Go field `Type`, a reserved word here). -/
structure File where
  Id : Int
  Type_ : String
  Tag : String
  UserId : Int
  UserName : String
  FileName : String
  ReallyFileName : String
  HashCode : String
  Url : String
  UrlHashCode : String
  Describe : String
  CreateTime : Int
  UpdateTime : Int
  Status : Int
  StoreType : Int
  IsPicture : Int
  Size : Int
  Aa : String
  Ab : String
  Ac : String
  Ad : String
  deriving DecidableEq, Repr

/-- The Go zero value of `File`. -/
def File.zero : File :=
  ⟨0, "", "", 0, "", "", "", "", "", "", "", 0, 0, 0, 0, 0, 0, "", "", "", ""⟩

/-- The columns of the `file` table (xorm maps `UrlHashCode` to `url_hash_code`, and so on). -/
inductive Col where
  | id | type | tag | user_id | user_name | file_name | really_file_name
  | hash_code | url | url_hash_code | describe | create_time | update_time
  | status | store_type | is_picture | size | aa | ab | ac | ad
  deriving DecidableEq, Repr

/-- A column value: the table only has integer and string columns. -/
inductive Val where
  | int (i : Int)
  | str (s : String)
  deriving DecidableEq, Repr

/-- Go zero value test, as xorm applies it to a bean field. -/
def Val.isZero : Val → Bool
  | .int i => i == 0
  | .str s => s == ""

/-- All columns, in struct order. -/
def Col.all : List Col :=
  [.id, .type, .tag, .user_id, .user_name, .file_name, .really_file_name,
   .hash_code, .url, .url_hash_code, .describe, .create_time, .update_time,
   .status, .store_type, .is_picture, .size, .aa, .ab, .ac, .ad]

/-- Read a column of a row (or of a bean). -/
def File.col (f : File) : Col → Val
  | .id => .int f.Id
  | .type => .str f.Type_
  | .tag => .str f.Tag
  | .user_id => .int f.UserId
  | .user_name => .str f.UserName
  | .file_name => .str f.FileName
  | .really_file_name => .str f.ReallyFileName
  | .hash_code => .str f.HashCode
  | .url => .str f.Url
  | .url_hash_code => .str f.UrlHashCode
  | .describe => .str f.Describe
  | .create_time => .int f.CreateTime
  | .update_time => .int f.UpdateTime
  | .status => .int f.Status
  | .store_type => .int f.StoreType
  | .is_picture => .int f.IsPicture
  | .size => .int f.Size
  | .aa => .str f.Aa
  | .ab => .str f.Ab
  | .ac => .str f.Ac
  | .ad => .str f.Ad

/-- Write a column of a row; a value of the wrong kind is not written. -/
def File.setCol (f : File) : Col → Val → File
  | .id, .int i => { f with Id := i }
  | .type, .str s => { f with Type_ := s }
  | .tag, .str s => { f with Tag := s }
  | .user_id, .int i => { f with UserId := i }
  | .user_name, .str s => { f with UserName := s }
  | .file_name, .str s => { f with FileName := s }
  | .really_file_name, .str s => { f with ReallyFileName := s }
  | .hash_code, .str s => { f with HashCode := s }
  | .url, .str s => { f with Url := s }
  | .url_hash_code, .str s => { f with UrlHashCode := s }
  | .describe, .str s => { f with Describe := s }
  | .create_time, .int i => { f with CreateTime := i }
  | .update_time, .int i => { f with UpdateTime := i }
  | .status, .int i => { f with Status := i }
  | .store_type, .int i => { f with StoreType := i }
  | .is_picture, .int i => { f with IsPicture := i }
  | .size, .int i => { f with Size := i }
  | .aa, .str s => { f with Aa := s }
  | .ab, .str s => { f with Ab := s }
  | .ac, .str s => { f with Ac := s }
  | .ad, .str s => { f with Ad := s }
  | _, _ => f

/-- A condition of a xorm session: the literal `1=1`, or `column = ?` with its argument. -/
inductive Cond where
  | tt
  | eq (c : Col) (v : Val)
  deriving DecidableEq, Repr

/-- Does a row satisfy a condition. -/
def Cond.holds (r : File) : Cond → Bool
  | .tt => true
  | .eq c v => r.col c == v

/-- A xorm session as `file.go` uses it: the conditions added by `Where`/`And`
(a conjunction) and the columns named by `Cols`. -/
structure Session where
  conds : List Cond
  cols : List Col
  deriving Repr

/-- The session returned by `Client.NewSession()` / `Client.Table(f)`. -/
def Session.new : Session := ⟨[], []⟩

/-- The call `s.Where(...)`. -/
def Session.Where (s : Session) (c : Cond) : Session := { s with conds := s.conds ++ [c] }

/-- The call `s.And(...)`. -/
def Session.And (s : Session) (c : Cond) : Session := { s with conds := s.conds ++ [c] }

/-- The call `s.Cols(...)`: column names accumulate over calls. -/
def Session.Cols (s : Session) (c : Col) : Session := { s with cols := s.cols ++ [c] }

/-- The conditions xorm derives from a bean handed to `Count`/`Get`: one equality
for each field of the bean that is not the zero value. -/
def autoConds (bean : File) : List Cond :=
  Col.all.filterMap (fun c => if (bean.col c).isZero then none else some (Cond.eq c (bean.col c)))

/-- The rows a `Count(bean)`/`Get(bean)` query selects: those satisfying the
session's conditions and the bean's own. -/
def Session.selects (s : Session) (bean r : File) : Bool :=
  (s.conds ++ autoConds bean).all (Cond.holds r)

/-- The call `s.Count(bean)`; a failing database answers `(0, err)`. -/
def Session.Count (s : Session) (dbErr : Option String) (rows : List File) (bean : File) :
    Int × Option String :=
  match dbErr with
  | some e => (0, some e)
  | none => (((rows.filter (s.selects bean)).length : Nat), none)

/-- The call `s.Get(bean)`: the first selected row is copied into the bean. -/
def Session.Get (s : Session) (dbErr : Option String) (rows : List File) (bean : File) :
    (Bool × Option String) × File :=
  match dbErr with
  | some e => ((false, some e), bean)
  | none =>
    match rows.find? (s.selects bean) with
    | some r => ((true, none), r)
    | none => ((false, none), bean)

/-- The columns an `Update(bean)` writes: those named by `Cols`, or, when none
was named, the bean's non-zero fields. -/
def Session.updateCols (s : Session) (bean : File) : List Col :=
  if s.cols = [] then Col.all.filter (fun c => !(bean.col c).isZero) else s.cols

/-- One row after `Update(bean)`: a row satisfying the session's conditions gets
the written columns from the bean, any other row is left as it is. -/
def Session.updateRow (s : Session) (bean r : File) : File :=
  if s.conds.all (Cond.holds r) then
    (s.updateCols bean).foldl (fun acc c => acc.setCol c (bean.col c)) r
  else r

/-- The call `s.Update(bean)`: affected-row count, error, and the table afterwards. -/
def Session.Update (s : Session) (dbErr : Option String) (rows : List File) (bean : File) :
    (Int × Option String) × List File :=
  match dbErr with
  | some e => ((0, some e), rows)
  | none =>
    ((((rows.filter (fun r => s.conds.all (Cond.holds r))).length : Nat), none),
      rows.map (s.updateRow bean))

/-- Method `File.Exist` of `file.go`. `Sha256` is `util.Sha256`, `dbErr` the failure (if
any) of the database for this call, `rows` the table. -/
def File.Exist (Sha256 : String → Except String String) (dbErr : Option String)
    (rows : List File) (f : File) : Bool × Option String :=
  if f.Id = 0 ∧ f.Url = "" ∧ f.HashCode = "" then (false, some "where is empty")
  else
    let s := Session.new
    let s := s.Where .tt
    let s := if f.Id ≠ 0 then s.And (.eq .id (.int f.Id)) else s
    match (if f.Url ≠ "" then (Sha256 f.Url).map some else .ok none) with
    | .error err => (false, some err)
    | .ok h? =>
      let s := match h? with
        | some h => s.And (.eq .url_hash_code (.str h))
        | none => s
      let s := if f.HashCode ≠ "" then s.And (.eq .hash_code (.str f.HashCode)) else s
      let (c, err) := s.Count dbErr rows f
      if c ≥ 1 then (true, none) else (false, err)

/-- Method `File.Get` of `file.go`; the second component is the receiver afterwards. -/
def File.Get (Sha256 : String → Except String String) (dbErr : Option String)
    (rows : List File) (f : File) : (Bool × Option String) × File :=
  if f.Id = 0 ∧ f.Url = "" ∧ f.HashCode = "" then ((false, some "where is empty"), f)
  else
    let s := Session.new
    let s := s.Where .tt
    let s := if f.Id ≠ 0 then s.And (.eq .id (.int f.Id)) else s
    match (if f.Url ≠ "" then (Sha256 f.Url).map some else .ok none) with
    | .error err => ((false, some err), f)
    | .ok h? =>
      let s := match h? with
        | some h => s.And (.eq .url_hash_code (.str h))
        | none => s
      let s := if f.HashCode ≠ "" then s.And (.eq .hash_code (.str f.HashCode)) else s
      s.Get dbErr rows f

/-- Result of a mutating `File` method: the Go return pair, the receiver
afterwards, and the table afterwards. -/
structure FileOut where
  ret : Bool × Option String
  recv : File
  rows : List File
  deriving Repr

/-- Method `File.Update` of `file.go`; `now` is `time.Now().Unix()`. -/
def File.Update (now : Int) (dbErr : Option String) (rows : List File) (f : File)
    (hide : Bool) : FileOut :=
  if f.Id = 0 then ⟨(false, some "where is empty"), f, rows⟩
  else
    let s := Session.new
    let s := s.Where (.eq .id (.int f.Id))
    let (f, s) := if hide then ({ f with Status := 1 }, s.Cols .status) else (f, s)
    let s := if f.UserId ≠ 0 then s.And (.eq .user_id (.int f.UserId)) else s
    let s := if f.Describe ≠ "" then s.Cols .describe else s
    let s := if f.Tag ≠ "" then s.Cols .tag else s
    let f := { f with UpdateTime := now }
    let s := s.Cols .update_time
    match s.Update dbErr rows f with
    | ((_, some err), rows) => ⟨(false, some err), f, rows⟩
    | ((_, none), rows) => ⟨(true, none), f, rows⟩

/-- Method `File.UpdateStatus` of `file.go`. -/
def File.UpdateStatus (now : Int) (dbErr : Option String) (rows : List File) (f : File) :
    FileOut :=
  if f.Id = 0 then ⟨(false, some "where is empty"), f, rows⟩
  else
    let s := Session.new
    let s := s.Where (.eq .id (.int f.Id))
    let s := s.Cols .status
    let s := if f.UserId ≠ 0 then s.And (.eq .user_id (.int f.UserId)) else s
    let f := { f with UpdateTime := now }
    let s := s.Cols .update_time
    match s.Update dbErr rows f with
    | ((_, some err), rows) => ⟨(false, some err), f, rows⟩
    | ((_, none), rows) => ⟨(true, none), f, rows⟩

/-! ## Accounts: the collaborators of `core/controllers/user.go` -/

/-- Modelled from the spec: the `model.User` struct (`core/model/user.go` is not
among the sources). The fields are the ones the handlers read or write, plus
the `id` of the spec's Identity. -/
structure User where
  Id : Int
  Name : String
  NickName : String
  Email : String
  WeChat : String
  WeiBo : String
  Github : String
  QQ : String
  Password : String
  Gender : Int
  Describe : String
  HeadPhoto : String
  CreateTime : Int
  ActivateMd5 : String
  ActivateExpired : Int
  Status : Int
  Code : String
  CodeExpired : Int
  deriving DecidableEq, Repr

/-- The Go zero value, `new(model.User)`. -/
def User.zero : User := ⟨0, "", "", "", "", "", "", "", "", 0, "", "", 0, "", 0, 0, "", 0⟩

/-- The error identifiers the handlers use. -/
inductive ErrCode where
  | ParasError | DBError | EmailError | LazyError | I500 | DbNotFound
  | TimeNotReachError | CodeWrong
  deriving DecidableEq, Repr

/-- The value built by `Error(id, msg)`. -/
structure ErrorResp where
  ErrorID : ErrCode
  ErrorMsg : String
  deriving DecidableEq, Repr

/-- The constructor `Error(id, msg)` of the controllers package. -/
def Error (id : ErrCode) (msg : String) : ErrorResp := ⟨id, msg⟩

/-- The response object `Resp`: `new(Resp)` is `Resp.zero`. -/
structure Resp where
  Flag : Bool
  Error : Option ErrorResp
  Data : Option User
  deriving DecidableEq, Repr

/-- The value of `new(Resp)`. -/
def Resp.zero : Resp := ⟨false, none, none⟩

/-- A response carrying only an error. -/
def Resp.fail (id : ErrCode) (msg : String) : Resp := ⟨false, some (Fafacms.Error id msg), none⟩

/-- What a handler wrote on the gin context with `c.String` or `c.Redirect`. -/
inductive Reply where
  | nothing
  | string (status : Nat) (body : String)
  | redirect (status : Nat) (location : String)
  deriving DecidableEq, Repr

/-- A `mail.Message` as the handlers fill it. -/
structure Message where
  To : String
  ToName : String
  Body : String
  deriving DecidableEq, Repr

/-- The calls a handler makes to its collaborators, recorded in `World.trace`. -/
inductive Call where
  | IsNameRepeat | IsEmailRepeat | PictureExist | Sent | InsertOne
  | IsActivateCodeExist | UpdateStatus | SetUserSession | UpdateActivateCode
  | GetUserByEmail | UpdateCode | UpdatePassword | DeleteUserSession | SetCookie
  deriving DecidableEq, Repr

/-- What a request finds outside the program: the clock, the configuration, and
the outcome of every call that can fail. -/
structure Env where
  /-- The value of `time.Now().Unix()`. -/
  now : Int
  /-- The value of `config.FafaConfig.Domain`. -/
  Domain : String
  /-- The table `ErrorMap`. -/
  ErrorMap : ErrCode → String
  /-- The function `util.Md5`. -/
  Md5 : String → String
  /-- The database error, if any, met by each model call. -/
  dbErr : Call → Option String
  /-- Whether a picture is stored at a url. -/
  pictureExist : String → Bool
  /-- The error, if any, of `mm.Sent()`. -/
  sentErr : Message → Option String
  /-- The error, if any, of `SetUserSession`. -/
  sessionErr : Option String
  /-- The activation code a rotation issues. -/
  nextActivateMd5 : String
  /-- The reset code a rotation issues. -/
  nextCode : String
  /-- The lifetime of a reset code, in seconds. -/
  codeWindow : Int

/-- The state a request runs against: the identity table, the caller's session
and `auth` cookie, the mails delivered, and the log of collaborator calls. -/
structure World where
  users : List User
  session : Option User
  authCookie : String
  outbox : List Message
  trace : List Call
  deriving DecidableEq, Repr

/-- Record a collaborator call. -/
def World.call (w : World) (c : Call) : World := { w with trace := w.trace ++ [c] }

/-- The calls made between two states of one request. -/
def callsDuring (w w' : World) : List Call := w'.trace.drop w.trace.length

/-- Modelled from the spec: `User.IsNameRepeat` (`core/model/user.go` is not among
the sources), the existence probe `checkNameAvailable`: whether some identity
has this name. It reads the table only. -/
def User.IsNameRepeat (env : Env) (users : List User) (u : User) : Except String Bool :=
  match env.dbErr .IsNameRepeat with
  | some e => .error e
  | none => .ok (users.any (fun r => r.Name == u.Name))

/-- Modelled from the spec: `User.IsEmailRepeat` (`core/model/user.go` is not among
the sources), the existence probe `checkEmailAvailable`. -/
def User.IsEmailRepeat (env : Env) (users : List User) (u : User) : Except String Bool :=
  match env.dbErr .IsEmailRepeat with
  | some e => .error e
  | none => .ok (users.any (fun r => r.Email == u.Email))

/-- Modelled from the spec: `Picture.Exist` (`model.Picture` is not among the
sources), the `ContentStore.exists` probe on a url. -/
def Picture.Exist (env : Env) (url : String) : Except String Bool :=
  match env.dbErr .PictureExist with
  | some e => .error e
  | none => .ok (env.pictureExist url)

/-- Modelled from the spec: `mail.Message.Sent` (the mail package is not among the
sources), the notification channel `send(...) → success|failure`. -/
def Message.Sent (env : Env) (mm : Message) : Option String := env.sentErr mm

/-- The id a new identity gets: one more than the largest id in the table. -/
def nextId (users : List User) : Int := (users.map (fun r => r.Id)).foldl max 0 + 1

/-- Modelled from the spec: `User.InsertOne` (`core/model/user.go` is not among the
sources): the identity is persisted under a fresh id; a failing write persists
nothing. Returns the receiver and the table afterwards. -/
def User.InsertOne (env : Env) (users : List User) (u : User) : Except String (User × List User) :=
  match env.dbErr .InsertOne with
  | some e => .error e
  | none =>
    let u := { u with Id := nextId users }
    .ok (u, users ++ [u])

/-- Modelled from the spec: `User.IsActivateCodeExist` (`core/model/user.go` is not
among the sources), the lookup `validate(code)`: the identity owning the
activation code is loaded into the receiver, without changing the table. -/
def User.IsActivateCodeExist (env : Env) (users : List User) (u : User) :
    Except String (Bool × User) :=
  match env.dbErr .IsActivateCodeExist with
  | some e => .error e
  | none =>
    match users.find? (fun r => r.ActivateMd5 == u.ActivateMd5) with
    | some r => .ok (true, r)
    | none => .ok (false, u)

/-- Modelled from the spec: `User.UpdateStatus` (`core/model/user.go` is not among
the sources): the status transition of the identity with the receiver's id. -/
def User.UpdateStatus (env : Env) (users : List User) (u : User) : Except String (List User) :=
  match env.dbErr .UpdateStatus with
  | some e => .error e
  | none => .ok (users.map (fun r => if r.Id = u.Id then { r with Status := u.Status } else r))

/-- Modelled from the spec: `User.UpdateActivateCode` (`core/model/user.go` is not
among the sources), the rotation of the activation token: a new code with an
expiry 48 hours from now, written to the identity with the receiver's id. -/
def User.UpdateActivateCode (env : Env) (users : List User) (u : User) :
    Except String (User × List User) :=
  match env.dbErr .UpdateActivateCode with
  | some e => .error e
  | none =>
    let u := { u with ActivateMd5 := env.nextActivateMd5, ActivateExpired := env.now + 48 * 3600 }
    .ok (u, users.map (fun r => if r.Id = u.Id then
      { r with ActivateMd5 := u.ActivateMd5, ActivateExpired := u.ActivateExpired } else r))

/-- Modelled from the spec: `User.GetUserByEmail` (`core/model/user.go` is not among
the sources): the identity with this email is loaded into the receiver. -/
def User.GetUserByEmail (env : Env) (users : List User) (u : User) :
    Except String (Bool × User) :=
  match env.dbErr .GetUserByEmail with
  | some e => .error e
  | none =>
    match users.find? (fun r => r.Email == u.Email) with
    | some r => .ok (true, r)
    | none => .ok (false, u)

/-- Modelled from the spec: `User.UpdateCode` (`core/model/user.go` is not among the
sources), the rotation of the reset token: a new short code with an expiry
`codeWindow` seconds from now, written to the identity with the receiver's id. -/
def User.UpdateCode (env : Env) (users : List User) (u : User) :
    Except String (User × List User) :=
  match env.dbErr .UpdateCode with
  | some e => .error e
  | none =>
    let u := { u with Code := env.nextCode, CodeExpired := env.now + env.codeWindow }
    .ok (u, users.map (fun r => if r.Id = u.Id then
      { r with Code := u.Code, CodeExpired := u.CodeExpired } else r))

/-- Modelled from the spec: `User.UpdatePassword` (`core/model/user.go` is not among
the sources): the password of the identity with the receiver's id is replaced
by the receiver's. -/
def User.UpdatePassword (env : Env) (users : List User) (u : User) : Except String (List User) :=
  match env.dbErr .UpdatePassword with
  | some e => .error e
  | none => .ok (users.map (fun r => if r.Id = u.Id then { r with Password := u.Password } else r))

/-- Modelled from the spec: `SetUserSession` (the session code is not among the
sources), the session store's `establish(identity)`. -/
def SetUserSession (env : Env) (w : World) (u : User) : Option String × World :=
  match env.sessionErr with
  | some e => (some e, w)
  | none => (none, { w with session := some u })

/-- Modelled from the spec: `DeleteUserSession` (the session code is not among the
sources), the session store's `revoke()`. -/
def DeleteUserSession (w : World) : World := { w with session := none }

/-- The call `c.SetCookie("auth", "", 0, "", "", false, false)`: the `auth` cookie
is overwritten with the given value. -/
def SetCookieAuth (w : World) (value : String) : World := { w with authCookie := value }

/-- The result of `fmt.Sprintf(mm.Body, arg)` on a fresh `mail.Message`, whose
`Body` is the empty string: Go reports the unused argument. -/
def SprintfEmpty (arg : String) : String := "%!(EXTRA string=" ++ arg ++ ")"

/-- The `RegisterUserRequest` struct. -/
structure RegisterUserRequest where
  Name : String
  NickName : String
  Email : String
  WeChat : String
  WeiBo : String
  Github : String
  QQ : String
  Password : String
  Gender : Int
  Describe : String
  ImagePath : String
  deriving DecidableEq, Repr

/-- The `ForgetPasswordRequest` struct. -/
structure ForgetPasswordRequest where
  Email : String
  deriving DecidableEq, Repr

/-- The `ChangePasswordRequest` struct. -/
structure ChangePasswordRequest where
  Email : String
  Code : String
  Password : String
  deriving DecidableEq, Repr

/-! ## The handlers of `core/controllers/user.go`

Each handler is embedded from the point where the request has been parsed and
validated. It returns what it answers and the state afterwards. -/

/-- Handler `RegisterUser`, lines 100-133: token issuance, the activation mail, and only
then the insert. -/
def RegisterUser.finish (env : Env) (req : RegisterUserRequest) (u : User) (w : World) :
    Resp × World :=
  let u := { u with ActivateMd5 := env.Md5 u.Email }
  let u := { u with CreateTime := env.now }
  let u := { u with Describe := req.Describe }
  let u := { u with ActivateExpired := env.now + 48 * 3600 }
  let u := { u with NickName := req.NickName }
  let u := { u with Password := req.Password }
  let u := { u with Gender := req.Gender }
  let u := { u with WeChat := req.WeChat }
  let u := { u with QQ := req.QQ }
  let u := { u with Github := req.Github }
  let u := { u with WeiBo := req.WeiBo }
  -- send email
  let mm : Message :=
    ⟨u.Email, u.NickName, SprintfEmpty (env.Domain ++ "/verify?code=" ++ u.ActivateMd5)⟩
  let w := w.call .Sent
  match Message.Sent env mm with
  | some err => (Resp.fail .EmailError err, w)
  | none =>
    let w := { w with outbox := w.outbox ++ [mm] }
    let w := w.call .InsertOne
    match User.InsertOne env w.users u with
    | .error err => (Resp.fail .DBError err, w)
    | .ok (u, users) => (⟨true, none, some u⟩, { w with users := users })

/-- Handler `RegisterUser`, from line 48. -/
def RegisterUser (env : Env) (req : RegisterUserRequest) (w : World) : Resp × World :=
  let u := User.zero
  -- name check
  let u := { u with Name := req.Name }
  let w := w.call .IsNameRepeat
  match User.IsNameRepeat env w.users u with
  | .error err => (Resp.fail .DBError err, w)
  | .ok true => (Resp.fail .ParasError "name already use by other", w)
  | .ok false =>
    -- email check
    let u := { u with Email := req.Email }
    let w := w.call .IsEmailRepeat
    match User.IsEmailRepeat env w.users u with
    | .error err => (Resp.fail .DBError err, w)
    | .ok true => (Resp.fail .ParasError "email already use by other", w)
    | .ok false =>
      -- if image not empty
      if req.ImagePath ≠ "" then
        let w := w.call .PictureExist
        match Picture.Exist env req.ImagePath with
        | .error err => (Resp.fail .DBError err, w)
        | .ok false => (Resp.fail .ParasError "image url not exist", w)
        | .ok true => RegisterUser.finish env req { u with HeadPhoto := req.ImagePath } w
      else RegisterUser.finish env req u w

/-- Handler `ActivateUser`; `code` is `c.Query("code")`. -/
def ActivateUser (env : Env) (code : String) (w : World) : (Resp × Reply) × World :=
  if code = "" then ((Resp.fail .ParasError "code empty", .string 200 "code empty"), w)
  else
    let u := { User.zero with ActivateMd5 := code }
    let w := w.call .IsActivateCodeExist
    match User.IsActivateCodeExist env w.users u with
    | .error _ => ((Resp.fail .ParasError "db err", .string 200 "db err"), w)
    | .ok (false, _) => ((Resp.fail .LazyError "code not found", .string 200 "code not found"), w)
    | .ok (true, u) =>
      if u.Status ≠ 0 then ((Resp.zero, .redirect 302 env.Domain), w)
      else if u.ActivateExpired < env.now then
        ((Resp.fail .LazyError "code expired",
          .string 200 ("code expired, resent email:<a href=\x27" ++ env.Domain ++
            "/activate/code?code=" ++ code ++ "\x27>Here</a>")), w)
      else
        let u := { u with Status := 1 }
        let w := w.call .UpdateStatus
        match User.UpdateStatus env w.users u with
        | .error _ => ((Resp.fail .ParasError "db err", .string 200 "db err"), w)
        | .ok users =>
          let w := { w with users := users }
          let w := w.call .SetUserSession
          match SetUserSession env w u with
          | (some _, w) =>
            ((Resp.fail .I500 (env.ErrorMap .I500), .string 200 (env.ErrorMap .I500)), w)
          | (none, w) => ((Resp.zero, .redirect 302 env.Domain), w)

/-- Handler `ResendActivateCodeToUser`, lines 238-259: rotation of the activation code and
the mail. -/
def ResendActivateCodeToUser.rotate (env : Env) (u : User) (w : World) :
    (Resp × Reply) × World :=
  let w := w.call .UpdateActivateCode
  match User.UpdateActivateCode env w.users u with
  | .error _ => ((Resp.fail .ParasError "db err", .string 200 "db err"), w)
  | .ok (u, users) =>
    let w := { w with users := users }
    -- send email
    let mm : Message :=
      ⟨u.Email, u.NickName, SprintfEmpty (env.Domain ++ "/activate?code=" ++ u.ActivateMd5)⟩
    let w := w.call .Sent
    match Message.Sent env mm with
    | some err => ((Resp.fail .EmailError err, .nothing), w)
    | none =>
      let w := { w with outbox := w.outbox ++ [mm] }
      ((Resp.zero, .string 200 "email code reset"), w)

/-- Handler `ResendActivateCodeToUser`; `code` is `c.Query("code")`. -/
def ResendActivateCodeToUser (env : Env) (code : String) (w : World) : (Resp × Reply) × World :=
  if code = "" then ((Resp.fail .ParasError "code empty", .string 200 "code empty"), w)
  else
    let u := { User.zero with ActivateMd5 := code }
    let w := w.call .IsActivateCodeExist
    match User.IsActivateCodeExist env w.users u with
    | .error _ => ((Resp.fail .ParasError "db err", .string 200 "db err"), w)
    | .ok (false, _) => ((Resp.fail .LazyError "code not found", .string 200 "code not found"), w)
    | .ok (true, u) =>
      if u.Status ≠ 0 then ResendActivateCodeToUser.rotate env u w
      else if u.ActivateExpired > env.now then
        ((Resp.fail .LazyError "code not expired", .string 200 "code not expired"), w)
      else ResendActivateCodeToUser.rotate env u w

/-- Handler `ForgetPassword`, from line 286. -/
def ForgetPassword (env : Env) (req : ForgetPasswordRequest) (w : World) : Resp × World :=
  let u := { User.zero with Email := req.Email }
  let w := w.call .GetUserByEmail
  match User.GetUserByEmail env w.users u with
  | .error _ => (Resp.fail .DBError (env.ErrorMap .DBError), w)
  | .ok (false, _) => (Resp.fail .DbNotFound (env.ErrorMap .DbNotFound), w)
  | .ok (true, u) =>
    if u.CodeExpired < env.now then
      let w := w.call .UpdateCode
      match User.UpdateCode env w.users u with
      | .error _ => (Resp.fail .DBError (env.ErrorMap .DBError), w)
      | .ok (u, users) =>
        let w := { w with users := users }
        -- send email
        let mm : Message := ⟨u.Email, u.NickName, "code is: " ++ u.Code⟩
        let w := w.call .Sent
        match Message.Sent env mm with
        | some err => (Resp.fail .EmailError err, w)
        | none =>
          let w := { w with outbox := w.outbox ++ [mm] }
          (⟨true, none, none⟩, w)
    else (Resp.fail .TimeNotReachError (env.ErrorMap .TimeNotReachError), w)

/-- Handler `ChangePassword`, from line 356. -/
def ChangePassword (env : Env) (req : ChangePasswordRequest) (w : World) : Resp × World :=
  let u := { User.zero with Email := req.Email }
  let w := w.call .GetUserByEmail
  match User.GetUserByEmail env w.users u with
  | .error _ => (Resp.fail .DBError (env.ErrorMap .DBError), w)
  | .ok (false, _) => (Resp.fail .DbNotFound "email", w)
  | .ok (true, u) =>
    if u.Code = req.Code then
      let u := { u with Password := req.Password }
      let w := w.call .UpdatePassword
      match User.UpdatePassword env w.users u with
      | .error _ => (Resp.fail .DBError (env.ErrorMap .DBError), w)
      | .ok users =>
        let w := { w with users := users }
        let w := DeleteUserSession (w.call .DeleteUserSession)
        let w := SetCookieAuth (w.call .SetCookie) ""
        (⟨true, none, none⟩, w)
    else (Resp.fail .CodeWrong "not valid", w)

/-- The conditions `RegisterUser` passes before the insert: the name is not
already used, the email is not already used, the image path is empty or
`Picture.Exist` reports it present, and the activation mail was sent. -/
def RegisterUser.gates (env : Env) (req : RegisterUserRequest) (w : World) : Prop :=
  User.IsNameRepeat env w.users { User.zero with Name := req.Name } = .ok false ∧
  User.IsEmailRepeat env w.users { User.zero with Name := req.Name, Email := req.Email } =
    .ok false ∧
  (req.ImagePath = "" ∨ Picture.Exist env req.ImagePath = .ok true) ∧
  Message.Sent env ⟨req.Email, req.NickName,
    SprintfEmpty (env.Domain ++ "/verify?code=" ++ env.Md5 req.Email)⟩ = none

/-- An environment in which nothing fails, at time 1000. -/
def env0 : Env :=
  { now := 1000
    Domain := "http://fafa"
    ErrorMap := fun _ => "error"
    Md5 := fun s => "md5:" ++ s
    dbErr := fun _ => none
    pictureExist := fun _ => false
    sentErr := fun _ => none
    sessionErr := none
    nextActivateMd5 := "fresh"
    nextCode := "654321"
    codeWindow := 300 }

/-- The environment `env0` with a failing mail channel. -/
def envNoMail : Env := { env0 with sentErr := fun _ => some "smtp down" }

/-- An unactivated identity whose activation code is valid until 2000 and whose
reset code expired at 500. -/
def alice : User :=
  { User.zero with
    Id := 1
    Name := "alice"
    NickName := "Al"
    Email := "a@x.com"
    Password := "secret1"
    ActivateMd5 := "md5:a@x.com"
    ActivateExpired := 2000
    Code := "123456"
    CodeExpired := 500 }

/-- The identity `alice`, activated. -/
def aliceActive : User := { alice with Status := 1 }

/-- The identity `alice` with a reset code valid until 1500. -/
def aliceFresh : User := { alice with CodeExpired := 1500 }

/-- A state holding one identity, a live session and an `auth` cookie. -/
def worldOf (u : User) : World := ⟨[u], some u, "token", [], []⟩

/-- A registration of a second identity, without picture. -/
def bobReq : RegisterUserRequest :=
  ⟨"bob", "Bob", "b@x.com", "", "", "", "", "secret2", 0, "", ""⟩

/-- A stored record owned by user 5, hidden. -/
def c8Row : File := { File.zero with Id := 1, UserId := 5, Status := 1 }

/-- A receiver naming record 1 and carrying no owner (`UserId` left at 0). -/
def c8Bean : File := { File.zero with Id := 1 }

/-- A receiver naming record 1 and carrying owner 6. -/
def c8Other : File := { File.zero with Id := 1, UserId := 6, Describe := "x", Tag := "y" }

/-- A selector as `Exist`/`Get` receive it: a receiver with only `Id`, `Url` and
`HashCode` filled in (each possibly left at its zero value). -/
def File.selector (id : Int) (url hash : String) : File :=
  { File.zero with Id := id, Url := url, HashCode := hash }

/-- The row test `Exist`/`Get` apply for a selector once the url hash `h?` has
been computed (`none` when no url was supplied). -/
def File.keyTest (id : Int) (url : String) (h? : Option String) (hash : String) (r : File) :
    Bool :=
  (id == 0 || r.Id == id) && (url == "" || r.Url == url) &&
  (match h? with
   | some h => r.UrlHashCode == h
   | none => true) &&
  (hash == "" || r.HashCode == hash)

/-- A record matches a selector, in the words of the claim: id equal,
`url_hash_code` equal to the Sha256 of the url, `hash_code` equal, conjunctively
over the fields supplied. -/
def File.matchesSelector (Sha256 : String → Except String String) (id : Int) (url hash : String)
    (r : File) : Bool :=
  (id == 0 || r.Id == id) &&
  (url == "" || (match Sha256 url with
                 | .ok h => r.UrlHashCode == h
                 | .error _ => false)) &&
  (hash == "" || r.HashCode == hash)

/-- A record resolves a selector, as the queries of `Exist`/`Get` test it: like
`matchesSelector`, and the stored url itself equals the supplied one. -/
def File.resolves (Sha256 : String → Except String String) (id : Int) (url hash : String)
    (r : File) : Bool :=
  File.matchesSelector Sha256 id url hash r && (url == "" || r.Url == url)

/-- Two rows that differ at most in `status`. -/
def File.sameButStatus (a b : File) : Prop := { a with Status := 0 } = { b with Status := 0 }

/-- Two rows with the same lookup keys. -/
def File.sameKeys (a b : File) : Prop :=
  a.Id = b.Id ∧ a.Url = b.Url ∧ a.UrlHashCode = b.UrlHashCode ∧ a.HashCode = b.HashCode

/-- A stand-in for `util.Sha256` on concrete inputs. -/
def sha (s : String) : Except String String := .ok ("sha256:" ++ s)

/-- Two records stored under the same url with different content hashes. -/
def c9First : File :=
  { File.zero with Id := 1, HashCode := "h1", Url := "/u.png", UrlHashCode := "sha256:/u.png" }

/-- A receiver naming record 1, used to hide it. -/
def c9Hide : File := { File.zero with Id := 1 }

/-- The second record of the same url. -/
def c9Second : File :=
  { File.zero with Id := 2, HashCode := "h2", Url := "/u.png", UrlHashCode := "sha256:/u.png" }


/-- What `File.Update` makes of a row it matches, in the words of its contract:
`describe` and `tag` are overwritten only by a non-empty supplied value,
`update_time` becomes `now`, `status` becomes 1 when hiding, every other field
is copied. -/
def File.patched (now : Int) (f : File) (hide : Bool) (r : File) : File :=
  ⟨r.Id, r.Type_, (if f.Tag ≠ "" then f.Tag else r.Tag), r.UserId, r.UserName,
   r.FileName, r.ReallyFileName, r.HashCode, r.Url, r.UrlHashCode,
   (if f.Describe ≠ "" then f.Describe else r.Describe), r.CreateTime, now,
   (if hide then 1 else r.Status), r.StoreType, r.IsPicture, r.Size,
   r.Aa, r.Ab, r.Ac, r.Ad⟩

/-- What `File.UpdateStatus` makes of a row it matches: `status` is taken from
the receiver, `update_time` becomes `now`. -/
def File.restatused (now : Int) (f : File) (r : File) : File :=
  ⟨r.Id, r.Type_, r.Tag, r.UserId, r.UserName,
   r.FileName, r.ReallyFileName, r.HashCode, r.Url, r.UrlHashCode,
   r.Describe, r.CreateTime, now, f.Status, r.StoreType, r.IsPicture, r.Size,
   r.Aa, r.Ab, r.Ac, r.Ad⟩

/-- The row test of `File.Update`/`File.UpdateStatus`: same id, and same owner
when the receiver carries one. -/
def File.targets (f r : File) : Prop := r.Id = f.Id ∧ (f.UserId = 0 ∨ r.UserId = f.UserId)

instance (f r : File) : Decidable (File.targets f r) := by
  unfold File.targets; infer_instance

/-! ## Theorems about file records -/

theorem Update_rows (now : Int) (rows : List File) (f : File) (hide : Bool) (h : f.Id ≠ 0) :
    File.Update now none rows f hide =
      ⟨(true, none), { f with Status := if hide then 1 else f.Status, UpdateTime := now },
        rows.map (fun r => if File.targets f r then File.patched now f hide r else r)⟩ := by
  cases hide <;> by_cases hu : f.UserId = 0 <;> by_cases hd : f.Describe = "" <;>
    by_cases ht : f.Tag = "" <;>
    simp [File.Update, h, hu, hd, ht, Session.new, Session.Where, Session.And, Session.Cols,
      Session.Update, Session.updateRow, Session.updateCols, Cond.holds, File.col,
      File.setCol, File.targets, File.patched]

theorem UpdateStatus_rows (now : Int) (rows : List File) (f : File) (h : f.Id ≠ 0) :
    File.UpdateStatus now none rows f =
      ⟨(true, none), { f with UpdateTime := now },
        rows.map (fun r => if File.targets f r then File.restatused now f r else r)⟩ := by
  by_cases hu : f.UserId = 0 <;>
    simp [File.UpdateStatus, h, hu, Session.new, Session.Where, Session.And, Session.Cols,
      Session.Update, Session.updateRow, Session.updateCols, Cond.holds, File.col,
      File.setCol, File.targets, File.restatused]

theorem Update_dbErr_rows (now : Int) (e : String) (rows : List File) (f : File) (hide : Bool) :
    (File.Update now (some e) rows f hide).rows = rows := by
  by_cases h : f.Id = 0
  · simp [File.Update, h]
  · cases hide <;> simp [File.Update, h, Session.Update]

theorem UpdateStatus_dbErr_rows (now : Int) (e : String) (rows : List File) (f : File) :
    (File.UpdateStatus now (some e) rows f).rows = rows := by
  by_cases h : f.Id = 0
  · simp [File.UpdateStatus, h]
  · simp [File.UpdateStatus, h, Session.Update]

/-- C10. `File.Update` is a partial update. With a non-zero `Id` and a working
database it succeeds and turns every row with that id (and that owner, when the
receiver has a non-zero `UserId`) into `File.patched`: `describe`/`tag` are
written only from a non-empty supplied value, `update_time` is always set to
`now`, `status` is set to 1 exactly when `hide` is true, and every other field
is kept; all other rows are kept. With `Id = 0` it fails with "where is empty"
and changes neither the table nor the receiver, whatever the database does. -/
theorem Update_writes_supplied (now : Int) (rows : List File) (f : File) (hide : Bool) :
    (f.Id ≠ 0 →
      (File.Update now none rows f hide).ret = (true, none) ∧
      (File.Update now none rows f hide).rows =
        rows.map (fun r => if r.Id = f.Id ∧ (f.UserId = 0 ∨ r.UserId = f.UserId) then
          (⟨r.Id, r.Type_, (if f.Tag ≠ "" then f.Tag else r.Tag), r.UserId, r.UserName,
            r.FileName, r.ReallyFileName, r.HashCode, r.Url, r.UrlHashCode,
            (if f.Describe ≠ "" then f.Describe else r.Describe), r.CreateTime, now,
            (if hide then 1 else r.Status), r.StoreType, r.IsPicture, r.Size,
            r.Aa, r.Ab, r.Ac, r.Ad⟩ : File) else r)) ∧
    (f.Id = 0 → ∀ dbErr : Option String,
      File.Update now dbErr rows f hide = ⟨(false, some "where is empty"), f, rows⟩) := by
  refine ⟨fun h => ?_, fun h dbErr => ?_⟩
  · rw [Update_rows now rows f hide h]
    exact ⟨rfl, rfl⟩
  · simp [File.Update, h]

/-- C8, as stated, fails when the supplied `UserId` is 0: the stored record is
owned by user 5, the receiver carries `UserId = 0`, and both operations rewrite
the record (`update_time`, and for `UpdateStatus` also `status`). -/
theorem owner_scope_counterexample :
    c8Row.Id = c8Bean.Id ∧ c8Row.UserId ≠ c8Bean.UserId ∧
    (File.Update 7 none [c8Row] c8Bean false).rows = [{ c8Row with UpdateTime := 7 }] ∧
    (File.UpdateStatus 7 none [c8Row] c8Bean).rows =
      [{ c8Row with UpdateTime := 7, Status := 0 }] ∧
    (File.Update 7 none [c8Row] c8Bean false).rows ≠ [c8Row] ∧
    (File.UpdateStatus 7 none [c8Row] c8Bean).rows ≠ [c8Row] := by
  decide

/-- C8 (amended). `File.Update` and `File.UpdateStatus` are owner-scoped when an
owner is supplied: if the receiver's `UserId` is non-zero, a stored record whose
`user_id` differs from it is left exactly as it was by both operations, at its
place in the table, whatever the database does. -/
theorem owner_scoped (now : Int) (dbErr : Option String) (rows : List File) (f : File)
    (hide : Bool) (i : Nat) (r : File)
    (hsup : f.UserId ≠ 0) (hrow : rows[i]? = some r) (hown : r.UserId ≠ f.UserId) :
    (File.Update now dbErr rows f hide).rows[i]? = some r ∧
    (File.UpdateStatus now dbErr rows f).rows[i]? = some r := by
  have ht : ¬ File.targets f r := by
    rintro ⟨-, h | h⟩
    · exact hsup h
    · exact hown h
  cases dbErr with
  | some e => rw [Update_dbErr_rows, UpdateStatus_dbErr_rows]; exact ⟨hrow, hrow⟩
  | none =>
    by_cases h : f.Id = 0
    · simp [File.Update, File.UpdateStatus, h, hrow]
    · rw [Update_rows now rows f hide h, UpdateStatus_rows now rows f h]
      simp [List.getElem?_map, hrow, ht]

theorem owner_scoped_witness :
    (File.Update 7 none [c8Row] c8Other true).rows[0]? = some c8Row ∧
    (File.UpdateStatus 7 none [c8Row] c8Other).rows[0]? = some c8Row :=
  owner_scoped 7 none [c8Row] c8Other true 0 c8Row (by decide) (by decide) (by decide)

theorem autoConds_selector (id : Int) (url hash : String) :
    autoConds (File.selector id url hash) =
      (if id = 0 then [] else [Cond.eq .id (.int id)]) ++
      ((if hash = "" then [] else [Cond.eq .hash_code (.str hash)]) ++
       (if url = "" then [] else [Cond.eq .url (.str url)])) := by
  by_cases h1 : id = 0 <;> by_cases h2 : url = "" <;> by_cases h3 : hash = "" <;>
    simp [autoConds, Col.all, File.col, File.selector, File.zero, Val.isZero, h1, h2, h3]

theorem selects_selector (s : Session) (id : Int) (url hash : String) (r : File) :
    s.selects (File.selector id url hash) r =
      (s.conds.all (Cond.holds r) && ((id == 0 || r.Id == id) && (url == "" || r.Url == url) &&
        (hash == "" || r.HashCode == hash))) := by
  rw [Session.selects, autoConds_selector, Bool.eq_iff_iff]
  by_cases h1 : id = 0 <;> by_cases h2 : url = "" <;> by_cases h3 : hash = "" <;>
    simp [File.col, Cond.holds, h1, h2, h3] <;> tauto

/-- The url hash the lookups compute for a selector: nothing without a url. -/
theorem urlHash_cases (Sha256 : String → Except String String) (url : String)
    (h? : Option String)
    (hsha : (if url ≠ "" then (Sha256 url).map some else .ok none) = .ok h?) :
    (url = "" ∧ h? = none) ∨ (url ≠ "" ∧ ∃ h, Sha256 url = .ok h ∧ h? = some h) := by
  by_cases hu : url = ""
  · left
    simp [hu] at hsha
    exact ⟨hu, hsha.symm⟩
  · right
    refine ⟨hu, ?_⟩
    simp only [ne_eq, hu, not_false_eq_true, if_true] at hsha
    cases hs : Sha256 url with
    | error e => rw [hs] at hsha; cases hsha
    | ok h =>
      rw [hs] at hsha
      refine ⟨h, rfl, ?_⟩
      cases hsha
      rfl

theorem lookup_selects (id : Int) (url hash : String) (h? : Option String) :
    Session.selects
      (let s := Session.new
       let s := s.Where .tt
       let s := if id ≠ 0 then s.And (.eq .id (.int id)) else s
       let s := match h? with
         | some h => s.And (.eq .url_hash_code (.str h))
         | none => s
       if hash ≠ "" then s.And (.eq .hash_code (.str hash)) else s)
      (File.selector id url hash) = File.keyTest id url h? hash := by
  funext r
  rw [selects_selector, Bool.eq_iff_iff]
  by_cases h1 : id = 0 <;> by_cases h3 : hash = "" <;> cases h? <;>
    simp [Session.new, Session.Where, Session.And, File.keyTest, Cond.holds, File.col, h1, h3] <;>
    tauto

theorem count_ge_one (p : File → Bool) (rows : List File) :
    (((rows.filter p).length : Nat) : Int) ≥ 1 ↔ rows.any p = true := by
  rw [← List.countP_eq_length_filter]
  have h := @List.countP_pos_iff _ rows p
  simp only [List.any_eq_true]
  constructor
  · intro hc
    exact h.mp (by omega)
  · intro hx
    have := h.mpr hx
    omega

theorem Exist_selector (Sha256 : String → Except String String) (dbErr : Option String)
    (rows : List File) (id : Int) (url hash : String) (h? : Option String)
    (hsel : ¬ (id = 0 ∧ url = "" ∧ hash = ""))
    (hsha : (if url ≠ "" then (Sha256 url).map some else .ok none) = .ok h?) :
    File.Exist Sha256 dbErr rows (File.selector id url hash) =
      match dbErr with
      | some e => (false, some e)
      | none => (rows.any (File.keyTest id url h? hash), none) := by
  have hl := lookup_selects id url hash h?
  have hsel2 : ¬ ((File.selector id url hash).Id = 0 ∧ (File.selector id url hash).Url = "" ∧
      (File.selector id url hash).HashCode = "") := hsel
  have hsha2 : (if (File.selector id url hash).Url ≠ "" then
      (Sha256 (File.selector id url hash).Url).map some else .ok none) = .ok h? := hsha
  unfold File.Exist
  rw [if_neg hsel2, hsha2]
  have hId : (File.selector id url hash).Id = id := rfl
  have hHash : (File.selector id url hash).HashCode = hash := rfl
  simp only [hId, hHash]
  simp only [] at hl
  cases dbErr with
  | some e => simp [Session.Count]
  | none =>
    simp only [Session.Count, hl, count_ge_one]
    cases rows.any (File.keyTest id url h? hash) <;> simp

theorem Get_selector (Sha256 : String → Except String String) (dbErr : Option String)
    (rows : List File) (id : Int) (url hash : String) (h? : Option String)
    (hsel : ¬ (id = 0 ∧ url = "" ∧ hash = ""))
    (hsha : (if url ≠ "" then (Sha256 url).map some else .ok none) = .ok h?) :
    File.Get Sha256 dbErr rows (File.selector id url hash) =
      match dbErr with
      | some e => ((false, some e), File.selector id url hash)
      | none =>
        match rows.find? (File.keyTest id url h? hash) with
        | some r => ((true, none), r)
        | none => ((false, none), File.selector id url hash) := by
  have hl := lookup_selects id url hash h?
  have hsel2 : ¬ ((File.selector id url hash).Id = 0 ∧ (File.selector id url hash).Url = "" ∧
      (File.selector id url hash).HashCode = "") := hsel
  have hsha2 : (if (File.selector id url hash).Url ≠ "" then
      (Sha256 (File.selector id url hash).Url).map some else .ok none) = .ok h? := hsha
  unfold File.Get
  rw [if_neg hsel2, hsha2]
  have hId : (File.selector id url hash).Id = id := rfl
  have hHash : (File.selector id url hash).HashCode = hash := rfl
  simp only [hId, hHash]
  simp only [] at hl
  cases dbErr with
  | some e => simp [Session.Get]
  | none => simp only [Session.Get, hl]

theorem keyTest_congr (id : Int) (url hash : String) (h? : Option String) (a b : File)
    (h : File.sameKeys a b) : File.keyTest id url h? hash a = File.keyTest id url h? hash b := by
  obtain ⟨h1, h2, h3, h4⟩ := h
  simp only [File.keyTest, h1, h2, h3, h4]

theorem sameKeys_of_sameButStatus (a b : File) (h : File.sameButStatus a b) :
    File.sameKeys a b := by
  unfold File.sameButStatus at h
  have e1 := congrArg File.Id h
  have e2 := congrArg File.Url h
  have e3 := congrArg File.UrlHashCode h
  have e4 := congrArg File.HashCode h
  exact ⟨e1, e2, e3, e4⟩

theorem any_forall₂ {R : File → File → Prop} {p : File → Bool}
    (hp : ∀ a b, R a b → p a = p b) {l l' : List File} (h : List.Forall₂ R l l') :
    l.any p = l'.any p := by
  induction h with
  | nil => rfl
  | cons hab _ ih => simp only [List.any_cons, hp _ _ hab, ih]

theorem find_forall₂ {R : File → File → Prop} {p : File → Bool}
    (hp : ∀ a b, R a b → p a = p b) {l l' : List File} (h : List.Forall₂ R l l') :
    (l.find? p = none ∧ l'.find? p = none) ∨
    (∃ a b, l.find? p = some a ∧ l'.find? p = some b ∧ R a b) := by
  induction h with
  | nil => left; exact ⟨rfl, rfl⟩
  | @cons a b l l' hab _ ih =>
    by_cases hpa : p a = true
    · right
      refine ⟨a, b, ?_, ?_, hab⟩
      · simp [List.find?_cons, hpa]
      · simp [List.find?_cons, ← hp _ _ hab, hpa]
    · have hpb : ¬ p b = true := by rw [← hp _ _ hab]; exact hpa
      simpa [List.find?_cons, hpa, hpb] using ih

theorem sameButStatus_refl (a : File) : File.sameButStatus a a := rfl

theorem lookups_status_free (Sha256 : String → Except String String) (dbErr : Option String)
    (id : Int) (url hash : String) (rows rows' : List File)
    (h : List.Forall₂ File.sameButStatus rows rows') :
    File.Exist Sha256 dbErr rows (File.selector id url hash) =
      File.Exist Sha256 dbErr rows' (File.selector id url hash) ∧
    (File.Get Sha256 dbErr rows (File.selector id url hash)).1 =
      (File.Get Sha256 dbErr rows' (File.selector id url hash)).1 ∧
    File.sameButStatus (File.Get Sha256 dbErr rows (File.selector id url hash)).2
      (File.Get Sha256 dbErr rows' (File.selector id url hash)).2 := by
  by_cases hsel : id = 0 ∧ url = "" ∧ hash = ""
  · have hsel2 : (File.selector id url hash).Id = 0 ∧ (File.selector id url hash).Url = "" ∧
        (File.selector id url hash).HashCode = "" := hsel
    simp only [File.Exist, File.Get, if_pos hsel2]
    exact ⟨trivial, trivial, rfl⟩
  · cases hsha : (if url ≠ "" then (Sha256 url).map some else .ok none) with
    | error e =>
      have hsel2 : ¬ ((File.selector id url hash).Id = 0 ∧ (File.selector id url hash).Url = "" ∧
          (File.selector id url hash).HashCode = "") := hsel
      have hsha2 : (if (File.selector id url hash).Url ≠ "" then
          (Sha256 (File.selector id url hash).Url).map some else .ok none) = .error e := hsha
      simp only [File.Exist, File.Get, if_neg hsel2, hsha2]
      exact ⟨trivial, trivial, rfl⟩
    | ok h? =>
      have hp : ∀ a b, File.sameButStatus a b →
          File.keyTest id url h? hash a = File.keyTest id url h? hash b :=
        fun a b hab => keyTest_congr id url hash h? a b (sameKeys_of_sameButStatus a b hab)
      rw [Exist_selector Sha256 dbErr rows id url hash h? hsel hsha,
        Exist_selector Sha256 dbErr rows' id url hash h? hsel hsha,
        Get_selector Sha256 dbErr rows id url hash h? hsel hsha,
        Get_selector Sha256 dbErr rows' id url hash h? hsel hsha]
      cases dbErr with
      | some e => exact ⟨rfl, rfl, rfl⟩
      | none =>
        refine ⟨by simp only [any_forall₂ hp h], ?_⟩
        rcases find_forall₂ hp h with ⟨h1, h2⟩ | ⟨a, b, h1, h2, hab⟩
        · rw [h1, h2]
          exact ⟨rfl, rfl⟩
        · rw [h1, h2]
          exact ⟨rfl, hab⟩

theorem forall₂_map_self {R : File → File → Prop} (u : File → File) (rows : List File)
    (h : ∀ a, R a (u a)) : List.Forall₂ R rows (rows.map u) := by
  rw [List.forall₂_map_right_iff, List.forall₂_same]
  exact fun x _ => h x

theorem keyTest_eq_resolves (Sha256 : String → Except String String) (id : Int)
    (url hash : String) (h? : Option String)
    (hsha : (if url ≠ "" then (Sha256 url).map some else .ok none) = .ok h?) :
    File.keyTest id url h? hash = File.resolves Sha256 id url hash := by
  funext r
  rw [Bool.eq_iff_iff]
  rcases urlHash_cases Sha256 url h? hsha with ⟨hu, hh⟩ | ⟨hu, h, hs, hh⟩
  · subst hu; subst hh
    simp [File.keyTest, File.resolves, File.matchesSelector]
  · subst hh
    simp [File.keyTest, File.resolves, File.matchesSelector, hs, hu]
    tauto

theorem resolves_urlHash (Sha256 : String → Except String String) (id : Int)
    (url hash : String) (r : File) (h : File.resolves Sha256 id url hash r = true) :
    ∃ h?, (if url ≠ "" then (Sha256 url).map some else .ok none) = .ok h? := by
  by_cases hu : url = ""
  · exact ⟨none, by simp [hu]⟩
  · cases hs : Sha256 url with
    | error e => simp [File.resolves, File.matchesSelector, hs, hu] at h
    | ok v => exact ⟨some v, by simp [hu, Except.map]⟩

theorem patched_sameKeys (now : Int) (g : File) (hide : Bool) (a : File) :
    File.sameKeys a (if File.targets g a then File.patched now g hide a else a) := by
  by_cases h : File.targets g a
  · rw [if_pos h]; exact ⟨rfl, rfl, rfl, rfl⟩
  · rw [if_neg h]; exact ⟨rfl, rfl, rfl, rfl⟩

/-- The table after any `File.Update` with a working database, as a row-wise map. -/
theorem Update_rows_map (now : Int) (rows : List File) (g : File) (hide : Bool) :
    ∃ u : File → File, (File.Update now none rows g hide).rows = rows.map u ∧
      (∀ a, File.sameKeys a (u a)) ∧
      (g.Id ≠ 0 → ∀ a, File.targets g a → u a = File.patched now g hide a) := by
  by_cases h : g.Id = 0
  · refine ⟨id, by simp [File.Update, h], fun a => ⟨rfl, rfl, rfl, rfl⟩, fun h' => absurd h h'⟩
  · refine ⟨fun a => if File.targets g a then File.patched now g hide a else a, ?_, ?_, ?_⟩
    · rw [Update_rows now rows g hide h]
    · exact patched_sameKeys now g hide
    · intro _ a ha
      simp only [if_pos ha]

theorem find_resolves (Sha256 : String → Except String String) (id : Int) (url hash : String)
    (rows : List File) (r : File) (hr : r ∈ rows)
    (hres : File.resolves Sha256 id url hash r = true) :
    ∃ r0, rows.find? (File.resolves Sha256 id url hash) = some r0 ∧
      ((∀ x ∈ rows, File.resolves Sha256 id url hash x = true → x = r) → r0 = r) := by
  cases hf : rows.find? (File.resolves Sha256 id url hash) with
  | none =>
    rw [List.find?_eq_none] at hf
    exact absurd hres (hf r hr)
  | some r0 =>
    exact ⟨r0, rfl, fun huniq => huniq r0 (List.mem_of_find?_eq_some hf) (List.find?_some hf)⟩

/-- C9, as stated, fails in a store where two records share a url: the second
record matches the selector (url only) in the words of the claim and is
reported as existing, but `Get` returns the first record, not this one. -/
theorem hidden_resolvable_counterexample :
    c9Second ∈ [c9First, c9Second] ∧
    File.matchesSelector sha 0 "/u.png" "" c9Second = true ∧
    File.Exist sha none [c9First, c9Second] (File.selector 0 "/u.png" "") = (true, none) ∧
    File.Get sha none [c9First, c9Second] (File.selector 0 "/u.png" "") =
      ((true, none), c9First) ∧
    c9First ≠ c9Second := by
  decide

/-- C9 (amended). Hidden files stay resolvable. For a selector with at least one
of id, url, hash set: (1) the results of `File.Exist` and `File.Get` do not
depend on the status of the stored records (two tables that differ only in
statuses give the same `Exist` answer, the same `Get` answer, and returned
records that differ at most in status); (2) when a stored record resolves the
selector (id equal, url equal with `url_hash_code` the Sha256 of the url,
`hash_code` equal, over the fields supplied), `Exist` reports true and `Get`
reports found and returns the first such record of the table, which is that
record when it is the only one; (3) the same holds after any
`File.Update(hide = true)`, and when that update targets the record (the only
one resolving the selector) `Get` returns it with status 1. -/
theorem hidden_resolvable (Sha256 : String → Except String String) (id : Int)
    (url hash : String) (hsel : id ≠ 0 ∨ url ≠ "" ∨ hash ≠ "") :
    (∀ (dbErr : Option String) (rows rows' : List File),
      List.Forall₂ File.sameButStatus rows rows' →
      File.Exist Sha256 dbErr rows (File.selector id url hash) =
        File.Exist Sha256 dbErr rows' (File.selector id url hash) ∧
      (File.Get Sha256 dbErr rows (File.selector id url hash)).1 =
        (File.Get Sha256 dbErr rows' (File.selector id url hash)).1 ∧
      File.sameButStatus (File.Get Sha256 dbErr rows (File.selector id url hash)).2
        (File.Get Sha256 dbErr rows' (File.selector id url hash)).2) ∧
    (∀ (rows : List File) (r : File), r ∈ rows → File.resolves Sha256 id url hash r = true →
      File.Exist Sha256 none rows (File.selector id url hash) = (true, none) ∧
      ∃ r0, File.Get Sha256 none rows (File.selector id url hash) = ((true, none), r0) ∧
        rows.find? (File.resolves Sha256 id url hash) = some r0 ∧
        ((∀ x ∈ rows, File.resolves Sha256 id url hash x = true → x = r) → r0 = r)) ∧
    (∀ (now : Int) (rows : List File) (r g : File), r ∈ rows →
      File.resolves Sha256 id url hash r = true →
      File.Exist Sha256 none (File.Update now none rows g true).rows
        (File.selector id url hash) = (true, none) ∧
      ∃ r1, File.Get Sha256 none (File.Update now none rows g true).rows
          (File.selector id url hash) = ((true, none), r1) ∧
        ((∀ x ∈ rows, File.resolves Sha256 id url hash x = true → x = r) →
          g.Id ≠ 0 → File.targets g r →
          r1 = File.patched now g true r ∧ r1.Status = 1)) := by
  have hsel' : ¬ (id = 0 ∧ url = "" ∧ hash = "") := by
    rintro ⟨h1, h2, h3⟩
    rcases hsel with h | h | h
    · exact h h1
    · exact h h2
    · exact h h3
  refine ⟨fun dbErr rows rows' h => lookups_status_free Sha256 dbErr id url hash rows rows' h,
    ?_, ?_⟩
  · intro rows r hr hres
    obtain ⟨h?, hsha⟩ := resolves_urlHash Sha256 id url hash r hres
    obtain ⟨r0, hf, huniq⟩ := find_resolves Sha256 id url hash rows r hr hres
    rw [Exist_selector Sha256 none rows id url hash h? hsel' hsha,
      Get_selector Sha256 none rows id url hash h? hsel' hsha,
      keyTest_eq_resolves Sha256 id url hash h? hsha]
    refine ⟨?_, r0, ?_, hf, huniq⟩
    · have : rows.any (File.resolves Sha256 id url hash) = true :=
        List.any_eq_true.mpr ⟨r, hr, hres⟩
      simp only [this]
    · simp only [hf]
  · intro now rows r g hr hres
    obtain ⟨h?, hsha⟩ := resolves_urlHash Sha256 id url hash r hres
    obtain ⟨r0, hf, huniq⟩ := find_resolves Sha256 id url hash rows r hr hres
    obtain ⟨u, hrows, hkeys, hpatch⟩ := Update_rows_map now rows g true
    have hp : ∀ a b, b = u a →
        File.resolves Sha256 id url hash a = File.resolves Sha256 id url hash b := by
      intro a b hb
      rw [← keyTest_eq_resolves Sha256 id url hash h? hsha, hb]
      exact keyTest_congr id url hash h? a (u a) (hkeys a)
    have hall : List.Forall₂ (fun a b => b = u a) rows (rows.map u) :=
      forall₂_map_self u rows (fun _ => rfl)
    rw [Exist_selector Sha256 none _ id url hash h? hsel' hsha,
      Get_selector Sha256 none _ id url hash h? hsel' hsha,
      keyTest_eq_resolves Sha256 id url hash h? hsha, hrows]
    have hany : (rows.map u).any (File.resolves Sha256 id url hash) = true := by
      rw [← any_forall₂ hp hall]
      exact List.any_eq_true.mpr ⟨r, hr, hres⟩
    refine ⟨by simp only [hany], ?_⟩
    rcases find_forall₂ hp hall with ⟨h1, -⟩ | ⟨a, b, h1, h2, hab⟩
    · rw [hf] at h1; cases h1
    · refine ⟨b, by simp only [h2], ?_⟩
      intro hu hg ht
      rw [hf] at h1
      cases h1
      have : r0 = r := huniq hu
      subst this
      rw [hab, hpatch hg r0 ht]
      exact ⟨rfl, rfl⟩

theorem hidden_resolvable_witness :
    File.Exist sha none (File.Update 7 none [c9First] c9Hide true).rows
      (File.selector 0 "/u.png" "") = (true, none) ∧
    File.Get sha none (File.Update 7 none [c9First] c9Hide true).rows
      (File.selector 0 "/u.png" "") = ((true, none), File.patched 7 c9Hide true c9First) :=
  have h := (hidden_resolvable sha 0 "/u.png" "" (Or.inr (Or.inl (by decide)))).2.2
    7 [c9First] c9First c9Hide (List.mem_singleton.mpr rfl) (by decide)
  ⟨h.1, by
    obtain ⟨r1, hget, hr1⟩ := h.2
    rw [hget, (hr1 (by decide) (by decide) (by decide)).1]⟩

/-! ## Theorems about the account handlers -/

/-- C1. `RegisterUser` persists a new identity only after every gate has passed.
For every state, request and environment: `InsertOne` is reached exactly when
the name is not already used, the email is not already used, the image path is
empty or `Picture.Exist` reports it present, and the activation mail was sent;
in every other case (in particular when the mail fails) the handler answers
with an error, no success flag, and the identity table is unchanged; and when
the gates pass and the insert succeeds the table gains exactly one identity,
in status 0. -/
theorem RegisterUser_gated (env : Env) (req : RegisterUserRequest) (w : World) :
    (Call.InsertOne ∈ callsDuring w (RegisterUser env req w).2 ↔ RegisterUser.gates env req w) ∧
    (¬ RegisterUser.gates env req w →
      (RegisterUser env req w).1.Error ≠ none ∧ (RegisterUser env req w).1.Flag = false ∧
      (RegisterUser env req w).2.users = w.users) ∧
    (Message.Sent env ⟨req.Email, req.NickName,
        SprintfEmpty (env.Domain ++ "/verify?code=" ++ env.Md5 req.Email)⟩ ≠ none →
      (RegisterUser env req w).1.Error ≠ none ∧ (RegisterUser env req w).2.users = w.users ∧
      Call.InsertOne ∉ callsDuring w (RegisterUser env req w).2) ∧
    (RegisterUser.gates env req w → env.dbErr .InsertOne = none →
      ∃ u, (RegisterUser env req w).1 = ⟨true, none, some u⟩ ∧ u.Status = 0 ∧
        u.Name = req.Name ∧ u.Email = req.Email ∧
        (RegisterUser env req w).2.users = w.users ++ [u]) := by
  cases hd1 : env.dbErr .IsNameRepeat
  case some => simp [RegisterUser.gates, RegisterUser, RegisterUser.finish, User.IsNameRepeat,
    User.IsEmailRepeat, Picture.Exist, Message.Sent, User.InsertOne, World.call, callsDuring,
    Resp.fail, User.zero, hd1]
  cases ha1 : w.users.any (fun r => r.Name == req.Name)
  case true => simp [RegisterUser.gates, RegisterUser, RegisterUser.finish, User.IsNameRepeat,
    User.IsEmailRepeat, Picture.Exist, Message.Sent, User.InsertOne, World.call, callsDuring,
    Resp.fail, User.zero, hd1, ha1]
  cases hd2 : env.dbErr .IsEmailRepeat
  case some => simp [RegisterUser.gates, RegisterUser, RegisterUser.finish, User.IsNameRepeat,
    User.IsEmailRepeat, Picture.Exist, Message.Sent, User.InsertOne, World.call, callsDuring,
    Resp.fail, User.zero, hd1, ha1, hd2]
  cases ha2 : w.users.any (fun r => r.Email == req.Email)
  case true => simp [RegisterUser.gates, RegisterUser, RegisterUser.finish, User.IsNameRepeat,
    User.IsEmailRepeat, Picture.Exist, Message.Sent, User.InsertOne, World.call, callsDuring,
    Resp.fail, User.zero, hd1, ha1, hd2, ha2]
  cases hm : env.sentErr ⟨req.Email, req.NickName,
        SprintfEmpty (env.Domain ++ "/verify?code=" ++ env.Md5 req.Email)⟩
  case some =>
    by_cases hi : req.ImagePath = ""
    · simp [RegisterUser.gates, RegisterUser, RegisterUser.finish, User.IsNameRepeat,
    User.IsEmailRepeat, Picture.Exist, Message.Sent, User.InsertOne, World.call, callsDuring,
    Resp.fail, User.zero, hd1, ha1, hd2, ha2, hi, hm]
    · cases hd3 : env.dbErr .PictureExist <;> cases hp : env.pictureExist req.ImagePath <;>
        simp [RegisterUser.gates, RegisterUser, RegisterUser.finish, User.IsNameRepeat,
    User.IsEmailRepeat, Picture.Exist, Message.Sent, User.InsertOne, World.call, callsDuring,
    Resp.fail, User.zero, hd1, ha1, hd2, ha2, hi, hm, hd3, hp]
  by_cases hi : req.ImagePath = ""
  · cases hd4 : env.dbErr .InsertOne <;> simp [RegisterUser.gates, RegisterUser, RegisterUser.finish, User.IsNameRepeat,
    User.IsEmailRepeat, Picture.Exist, Message.Sent, User.InsertOne, World.call, callsDuring,
    Resp.fail, User.zero, hd1, ha1, hd2, ha2, hi, hm, hd4]
  · cases hd3 : env.dbErr .PictureExist with
    | some e => simp [RegisterUser.gates, RegisterUser, RegisterUser.finish, User.IsNameRepeat,
    User.IsEmailRepeat, Picture.Exist, Message.Sent, User.InsertOne, World.call, callsDuring,
    Resp.fail, User.zero, hd1, ha1, hd2, ha2, hi, hm, hd3]
    | none =>
      cases hp : env.pictureExist req.ImagePath with
      | false => simp [RegisterUser.gates, RegisterUser, RegisterUser.finish, User.IsNameRepeat,
    User.IsEmailRepeat, Picture.Exist, Message.Sent, User.InsertOne, World.call, callsDuring,
    Resp.fail, User.zero, hd1, ha1, hd2, ha2, hi, hm, hd3, hp]
      | true =>
        cases hd4 : env.dbErr .InsertOne <;>
          simp [RegisterUser.gates, RegisterUser, RegisterUser.finish, User.IsNameRepeat,
    User.IsEmailRepeat, Picture.Exist, Message.Sent, User.InsertOne, World.call, callsDuring,
    Resp.fail, User.zero, hd1, ha1, hd2, ha2, hi, hm, hd3, hp, hd4]

theorem find_activate_map (users : List User) (code : String) (g : User → User)
    (hg : ∀ x, (g x).ActivateMd5 = x.ActivateMd5) :
    (users.map g).find? (fun x => x.ActivateMd5 == code) =
      (users.find? (fun x => x.ActivateMd5 == code)).map g := by
  rw [List.find?_map]
  congr 2
  funext x
  simp [Function.comp, hg x]

theorem ActivateUser_first (env : Env) (code : String) (w : World) (r : User)
    (hcode : code ≠ "")
    (hdb : env.dbErr .IsActivateCodeExist = none) (hdb2 : env.dbErr .UpdateStatus = none)
    (hsess : env.sessionErr = none)
    (hown : w.users.find? (fun x => x.ActivateMd5 == code) = some r)
    (hst : r.Status = 0) (hexp : ¬ r.ActivateExpired < env.now) :
    ActivateUser env code w =
      ((Resp.zero, Reply.redirect 302 env.Domain),
        ⟨w.users.map (fun x => if x.Id = r.Id then { x with Status := 1 } else x),
          some { r with Status := 1 }, w.authCookie, w.outbox,
          w.trace ++ [.IsActivateCodeExist, .UpdateStatus, .SetUserSession]⟩) := by
  simp [ActivateUser, hcode, User.IsActivateCodeExist, hdb, hown, hst, hexp, User.UpdateStatus,
    hdb2, SetUserSession, hsess, World.call, User.zero]

theorem ActivateUser_again (env : Env) (code : String) (w : World) (r : User)
    (hcode : code ≠ "")
    (hdb : env.dbErr .IsActivateCodeExist = none)
    (hown : w.users.find? (fun x => x.ActivateMd5 == code) = some r)
    (hst : r.Status ≠ 0) :
    ActivateUser env code w =
      ((Resp.zero, Reply.redirect 302 env.Domain), w.call .IsActivateCodeExist) := by
  simp [ActivateUser, hcode, User.IsActivateCodeExist, hdb, hown, hst, World.call, User.zero]

/-- C2. `ActivateUser` is a one-shot, idempotent transition. When the code is
owned by an identity with status 0 whose activation token has not expired (and
neither the table nor the session store fails), the handler sets that
identity's status to 1, establishes a session for it and redirects; a second
call with the same code on the resulting state takes the already-active branch:
it redirects without error, does not call `UpdateStatus`, and leaves the table
and the session unchanged. -/
theorem ActivateUser_once (env env' : Env) (code : String) (w : World) (r : User)
    (hcode : code ≠ "")
    (hdb : env.dbErr .IsActivateCodeExist = none) (hdb2 : env.dbErr .UpdateStatus = none)
    (hsess : env.sessionErr = none)
    (hown : w.users.find? (fun x => x.ActivateMd5 == code) = some r)
    (hst : r.Status = 0) (hexp : ¬ r.ActivateExpired < env.now)
    (hdb' : env'.dbErr .IsActivateCodeExist = none) :
    (ActivateUser env code w).1 = (Resp.zero, Reply.redirect 302 env.Domain) ∧
    (ActivateUser env code w).2.users =
      w.users.map (fun x => if x.Id = r.Id then { x with Status := 1 } else x) ∧
    (ActivateUser env code w).2.users.find? (fun x => x.ActivateMd5 == code) =
      some { r with Status := 1 } ∧
    (ActivateUser env code w).2.session = some { r with Status := 1 } ∧
    callsDuring w (ActivateUser env code w).2 =
      [.IsActivateCodeExist, .UpdateStatus, .SetUserSession] ∧
    (ActivateUser env' code (ActivateUser env code w).2).1 =
      (Resp.zero, Reply.redirect 302 env'.Domain) ∧
    (ActivateUser env' code (ActivateUser env code w).2).2.users =
      (ActivateUser env code w).2.users ∧
    (ActivateUser env' code (ActivateUser env code w).2).2.session =
      (ActivateUser env code w).2.session ∧
    callsDuring (ActivateUser env code w).2 (ActivateUser env' code (ActivateUser env code w).2).2 =
      [.IsActivateCodeExist] := by
  have hfind : (w.users.map (fun x => if x.Id = r.Id then { x with Status := 1 } else x)).find?
      (fun x => x.ActivateMd5 == code) = some { r with Status := 1 } := by
    rw [find_activate_map _ _ _ (by intro x; by_cases hx : x.Id = r.Id <;> simp [hx]), hown]
    simp
  rw [ActivateUser_first env code w r hcode hdb hdb2 hsess hown hst hexp]
  rw [ActivateUser_again env' code _ { r with Status := 1 } hcode hdb' hfind (by simp)]
  refine ⟨rfl, rfl, hfind, rfl, ?_, rfl, rfl, rfl, ?_⟩
  · simp [callsDuring]
  · simp [callsDuring, World.call]

theorem ActivateUser_once_witness :
    (ActivateUser env0 "md5:a@x.com" (worldOf alice)).2.users = [aliceActive] ∧
    (ActivateUser env0 "md5:a@x.com"
      (ActivateUser env0 "md5:a@x.com" (worldOf alice)).2).2.users = [aliceActive] :=
  have h := ActivateUser_once env0 env0 "md5:a@x.com" (worldOf alice) alice
    (by decide) rfl rfl rfl (by decide) (by decide) (by decide) rfl
  ⟨h.2.1.trans (by decide), h.2.2.2.2.2.2.1.trans (h.2.1.trans (by decide))⟩

/-- C3. `ChangePassword` is gated by the reset code. For an identity found by
email: if the supplied code differs from its stored reset code the handler
answers `CodeWrong`, does not call `UpdatePassword`, and leaves the table (so
the stored password), the session and the `auth` cookie as they were; if the
code matches and the update succeeds, the stored password of that identity
becomes the new password, the session is revoked and the `auth` cookie is
emptied. -/
theorem ChangePassword_gated (env : Env) (req : ChangePasswordRequest) (w : World) (r : User)
    (hdb : env.dbErr .GetUserByEmail = none)
    (hown : w.users.find? (fun x => x.Email == req.Email) = some r) :
    (r.Code ≠ req.Code →
      (ChangePassword env req w).1 = Resp.fail .CodeWrong "not valid" ∧
      Call.UpdatePassword ∉ callsDuring w (ChangePassword env req w).2 ∧
      (ChangePassword env req w).2.users = w.users ∧
      (ChangePassword env req w).2.session = w.session ∧
      (ChangePassword env req w).2.authCookie = w.authCookie) ∧
    (r.Code = req.Code → env.dbErr .UpdatePassword = none →
      (ChangePassword env req w).1 = ⟨true, none, none⟩ ∧
      (ChangePassword env req w).2.users =
        w.users.map (fun x => if x.Id = r.Id then { x with Password := req.Password } else x) ∧
      (ChangePassword env req w).2.users.find? (fun x => x.Email == req.Email) =
        some { r with Password := req.Password } ∧
      (ChangePassword env req w).2.session = none ∧
      (ChangePassword env req w).2.authCookie = "") := by
  constructor
  · intro hne
    simp [ChangePassword, User.GetUserByEmail, hdb, hown, hne, World.call, User.zero,
      callsDuring]
  · intro heq hdb2
    have hfind : (w.users.map
        (fun x => if x.Id = r.Id then { x with Password := req.Password } else x)).find?
        (fun x => x.Email == req.Email) = some { r with Password := req.Password } := by
      rw [List.find?_map]
      have : ((fun x : User => x.Email == req.Email) ∘
          (fun x => if x.Id = r.Id then { x with Password := req.Password } else x)) =
          (fun x => x.Email == req.Email) := by
        funext x
        by_cases hx : x.Id = r.Id <;> simp [Function.comp, hx]
      rw [this, hown]
      simp
    have hout : ChangePassword env req w = (⟨true, none, none⟩,
        ⟨w.users.map (fun x => if x.Id = r.Id then { x with Password := req.Password } else x),
          none, "", w.outbox,
          w.trace ++ [.GetUserByEmail, .UpdatePassword, .DeleteUserSession, .SetCookie]⟩) := by
      simp [ChangePassword, User.GetUserByEmail, hdb, hown, heq, User.UpdatePassword, hdb2,
        World.call, User.zero, DeleteUserSession, SetCookieAuth]
    rw [hout]
    exact ⟨rfl, rfl, hfind, rfl, rfl⟩

/-- A password change for `alice` quoting her stored reset code. -/
theorem ChangePassword_gated_witness :
    (ChangePassword env0 ⟨"a@x.com", "000000", "newpass1"⟩ (worldOf alice)).2.users = [alice] ∧
    (ChangePassword env0 ⟨"a@x.com", "123456", "newpass1"⟩ (worldOf alice)).2.session = none :=
  ⟨((ChangePassword_gated env0 ⟨"a@x.com", "000000", "newpass1"⟩ (worldOf alice) alice rfl
      (by decide)).1 (by decide)).2.2.1,
   ((ChangePassword_gated env0 ⟨"a@x.com", "123456", "newpass1"⟩ (worldOf alice) alice rfl
      (by decide)).2 (by decide) rfl).2.2.2.1⟩

/-- C5. `ResendActivateCodeToUser` throttles a still-valid token. When the code is
owned by an identity with status 0 whose activation token expires later than
now, the handler answers "code not expired", makes no call other than the
lookup (so neither `UpdateActivateCode` nor the mail), and leaves the table
(so the activation code and its expiry), the mails delivered and the session
unchanged. -/
theorem Resend_throttled (env : Env) (code : String) (w : World) (r : User)
    (hcode : code ≠ "")
    (hdb : env.dbErr .IsActivateCodeExist = none)
    (hown : w.users.find? (fun x => x.ActivateMd5 == code) = some r)
    (hst : r.Status = 0) (hvalid : r.ActivateExpired > env.now) :
    (ResendActivateCodeToUser env code w).1 =
      (Resp.fail .LazyError "code not expired", Reply.string 200 "code not expired") ∧
    callsDuring w (ResendActivateCodeToUser env code w).2 = [.IsActivateCodeExist] ∧
    Call.UpdateActivateCode ∉ callsDuring w (ResendActivateCodeToUser env code w).2 ∧
    Call.Sent ∉ callsDuring w (ResendActivateCodeToUser env code w).2 ∧
    (ResendActivateCodeToUser env code w).2.users = w.users ∧
    (ResendActivateCodeToUser env code w).2.users.find? (fun x => x.ActivateMd5 == code) =
      some r ∧
    (ResendActivateCodeToUser env code w).2.outbox = w.outbox ∧
    (ResendActivateCodeToUser env code w).2.session = w.session := by
  have hout : ResendActivateCodeToUser env code w =
      ((Resp.fail .LazyError "code not expired", Reply.string 200 "code not expired"),
        w.call .IsActivateCodeExist) := by
    simp [ResendActivateCodeToUser, hcode, User.IsActivateCodeExist, hdb, hown, hst, hvalid,
      World.call, User.zero]
  rw [hout]
  simp [callsDuring, World.call, hown]

theorem Resend_throttled_witness :
    (ResendActivateCodeToUser env0 "md5:a@x.com" (worldOf alice)).2.users = [alice] ∧
    (ResendActivateCodeToUser env0 "md5:a@x.com" (worldOf alice)).2.outbox = [] :=
  have h := Resend_throttled env0 "md5:a@x.com" (worldOf alice) alice (by decide) rfl
    (by decide) (by decide) (by decide)
  ⟨h.2.2.2.2.1, h.2.2.2.2.2.2.1⟩

/-- C6 fails on the code. The code "md5:a@x.com" is owned by an identity with
status 1; `ResendActivateCodeToUser` does not stop there: it calls
`UpdateActivateCode`, which replaces the activation code and its expiry in the
table, sends a mail, and answers "email code reset". -/
theorem Resend_active_rotates :
    (worldOf aliceActive).users.find? (fun x => x.ActivateMd5 == "md5:a@x.com") =
      some aliceActive ∧
    aliceActive.Status ≠ 0 ∧
    (ResendActivateCodeToUser env0 "md5:a@x.com" (worldOf aliceActive)).1 =
      (Resp.zero, Reply.string 200 "email code reset") ∧
    callsDuring (worldOf aliceActive)
        (ResendActivateCodeToUser env0 "md5:a@x.com" (worldOf aliceActive)).2 =
      [.IsActivateCodeExist, .UpdateActivateCode, .Sent] ∧
    (ResendActivateCodeToUser env0 "md5:a@x.com" (worldOf aliceActive)).2.users =
      [{ aliceActive with ActivateMd5 := "fresh", ActivateExpired := 173800 }] ∧
    (ResendActivateCodeToUser env0 "md5:a@x.com" (worldOf aliceActive)).2.users ≠
      (worldOf aliceActive).users ∧
    (ResendActivateCodeToUser env0 "md5:a@x.com" (worldOf aliceActive)).2.outbox =
      [⟨"a@x.com", "Al", "%!(EXTRA string=http://fafa/activate?code=fresh)"⟩] := by
  decide

/-- C4 fails on the code. The reset token of `alice` expired at 500 and the time
is 1000; `ChangePassword` with her email and her stored reset code still
replaces the password, because the handler never reads `CodeExpired`. -/
theorem ChangePassword_ignores_expiry :
    alice.CodeExpired < env0.now ∧
    (worldOf alice).users.find? (fun x => x.Email == "a@x.com") = some alice ∧
    (ChangePassword env0 ⟨"a@x.com", alice.Code, "newpass1"⟩ (worldOf alice)).1 =
      ⟨true, none, none⟩ ∧
    (ChangePassword env0 ⟨"a@x.com", alice.Code, "newpass1"⟩ (worldOf alice)).2.users =
      [{ alice with Password := "newpass1" }] ∧
    alice.Password ≠ "newpass1" := by
  decide

/-- C7. `ForgetPassword` rate-limits the rotation of the reset token. For an
identity found by email: `UpdateCode` is called exactly when the stored reset
token has expired (`CodeExpired` earlier than now), and the mail is sent
exactly when it has expired and the rotation was written; when the token is
still valid the handler answers `TimeNotReachError`, makes no call other than
the lookup, and leaves the table (so the reset code and its expiry), the mails
delivered, the session and the cookie unchanged, also when the request is
replayed; when the token has expired and nothing fails, the identity gets the
new code with a new expiry and the mail carrying it is delivered. -/
theorem ForgetPassword_rate_limited (env : Env) (req : ForgetPasswordRequest) (w : World)
    (r : User)
    (hdb : env.dbErr .GetUserByEmail = none)
    (hown : w.users.find? (fun x => x.Email == req.Email) = some r) :
    (Call.UpdateCode ∈ callsDuring w (ForgetPassword env req w).2 ↔ r.CodeExpired < env.now) ∧
    (Call.Sent ∈ callsDuring w (ForgetPassword env req w).2 ↔
      (r.CodeExpired < env.now ∧ env.dbErr .UpdateCode = none)) ∧
    (¬ r.CodeExpired < env.now →
      (ForgetPassword env req w).1 =
        Resp.fail .TimeNotReachError (env.ErrorMap .TimeNotReachError) ∧
      callsDuring w (ForgetPassword env req w).2 = [.GetUserByEmail] ∧
      (ForgetPassword env req w).2.users = w.users ∧
      (ForgetPassword env req w).2.outbox = w.outbox ∧
      (ForgetPassword env req w).2.session = w.session ∧
      (ForgetPassword env req w).2.authCookie = w.authCookie ∧
      (ForgetPassword env req (ForgetPassword env req w).2).2.users = w.users ∧
      (ForgetPassword env req (ForgetPassword env req w).2).2.outbox = w.outbox) ∧
    (r.CodeExpired < env.now → env.dbErr .UpdateCode = none →
      env.sentErr ⟨r.Email, r.NickName, "code is: " ++ env.nextCode⟩ = none →
      (ForgetPassword env req w).1 = ⟨true, none, none⟩ ∧
      (ForgetPassword env req w).2.users =
        w.users.map (fun x => if x.Id = r.Id then
          { x with Code := env.nextCode, CodeExpired := env.now + env.codeWindow } else x) ∧
      (ForgetPassword env req w).2.outbox =
        w.outbox ++ [⟨r.Email, r.NickName, "code is: " ++ env.nextCode⟩]) := by
  by_cases hexp : r.CodeExpired < env.now
  · cases hd2 : env.dbErr .UpdateCode with
    | some e =>
      simp [ForgetPassword, User.GetUserByEmail, hdb, hown, hexp, User.UpdateCode, hd2,
        World.call, User.zero, callsDuring]
    | none =>
      cases hm : env.sentErr ⟨r.Email, r.NickName, "code is: " ++ env.nextCode⟩ <;>
        simp [ForgetPassword, User.GetUserByEmail, hdb, hown, hexp, User.UpdateCode, hd2,
          Message.Sent, hm, World.call, User.zero, callsDuring]
  · have hout : ForgetPassword env req w =
        (Resp.fail .TimeNotReachError (env.ErrorMap .TimeNotReachError),
          w.call .GetUserByEmail) := by
      simp [ForgetPassword, User.GetUserByEmail, hdb, hown, hexp, World.call, User.zero]
    have hout2 : ForgetPassword env req (w.call .GetUserByEmail) =
        (Resp.fail .TimeNotReachError (env.ErrorMap .TimeNotReachError),
          (w.call .GetUserByEmail).call .GetUserByEmail) := by
      simp [ForgetPassword, User.GetUserByEmail, hdb, hown, hexp, World.call, User.zero]
    rw [hout, hout2]
    simp [callsDuring, World.call, hexp]

theorem ForgetPassword_rate_limited_witness :
    (ForgetPassword env0 ⟨"a@x.com"⟩ (worldOf aliceFresh)).2.users = [aliceFresh] ∧
    (ForgetPassword env0 ⟨"a@x.com"⟩ (worldOf alice)).2.outbox =
      [⟨"a@x.com", "Al", "code is: 654321"⟩] :=
  ⟨((ForgetPassword_rate_limited env0 ⟨"a@x.com"⟩ (worldOf aliceFresh) aliceFresh rfl
      (by decide)).2.2.1 (by decide)).2.2.1,
   ((ForgetPassword_rate_limited env0 ⟨"a@x.com"⟩ (worldOf alice) alice rfl
      (by decide)).2.2.2 (by decide) rfl rfl).2.2⟩

end Fafacms
